import Mathlib

/-!
Shallow embedding of the gmail-power-cli repository (TypeScript) in Lean 4.

The embedded code comes from:
* `src/cli-groq.ts`   — class `GmailAICLI`: the interactive CLI's tool
  dispatcher `callTool`, its session context fields (`lastEmailIds`,
  `lastReadEmailId`, `labelsCache`), the label-name resolution helper
  `getLabelIdByName`, and the confirmation logic for destructive actions.
* `src/gmail-service.ts` — class `GmailService`: `searchEmails`, `readEmail`,
  `modifyLabels`, `batchOperation`, `createFilter`, `listLabels`.

JavaScript-specific semantics that matter to the embedded fragments are
modelled explicitly: truthiness of strings and of nullable values, the
`parseInt` leading-digit parse, and `||` defaulting.  Gmail API traffic is
modelled by an explicit environment (`GmailEnv`) of response functions, and
each service method additionally returns the trace of API calls it issues.
-/

/-- JS truthiness of a possibly-absent string (`undefined`/`null`/`""` are
falsy, every other string is truthy). -/
def jsTruthyStr : Option String → Bool
  | none => false
  | some s => s ≠ ""

/-- Longest prefix of decimal digits of a character list. -/
def leadingDigits : List Char → List Char
  | [] => []
  | c :: cs => if c.isDigit then c :: leadingDigits cs else []

/-- Numeric value of a list of decimal digits. -/
def digitsVal (ds : List Char) : Nat :=
  ds.foldl (fun acc c => acc * 10 + (c.toNat - 48)) 0

/-- Longest prefix of hexadecimal digits of a character list. -/
def leadingHexDigits : List Char → List Char
  | [] => []
  | c :: cs =>
    if c.isDigit ∨ (97 ≤ c.toNat ∧ c.toNat ≤ 102) ∨ (65 ≤ c.toNat ∧ c.toNat ≤ 70) then
      c :: leadingHexDigits cs
    else []

/-- Numeric value of a list of hexadecimal digits. -/
def hexDigitsVal (ds : List Char) : Nat :=
  ds.foldl (fun acc c =>
    acc * 16 + (if c.isDigit then c.toNat - 48
                else if 97 ≤ c.toNat then c.toNat - 87
                else c.toNat - 55)) 0

/-- The unsigned part of JavaScript `parseInt` with no radix argument: a
`0x`/`0X` prefix switches to hexadecimal, otherwise a maximal run of decimal
digits; `none` models `NaN`.  Trailing characters are ignored. -/
def jsParseIntMagnitude : List Char → Option Nat
  | '0' :: 'x' :: rest =>
    let ds := leadingHexDigits rest
    if ds.isEmpty then none else some (hexDigitsVal ds)
  | '0' :: 'X' :: rest =>
    let ds := leadingHexDigits rest
    if ds.isEmpty then none else some (hexDigitsVal ds)
  | cs =>
    let ds := leadingDigits cs
    if ds.isEmpty then none else some (digitsVal ds)

/-- JavaScript `parseInt(s)` with no radix argument: skip leading (ASCII)
whitespace, read an optional sign, then the magnitude; `none` models `NaN`
(no digits found). -/
def jsParseInt (s : String) : Option Int :=
  let cs := s.data.dropWhile (fun c =>
    c = ' ' ∨ c = '\t' ∨ c = '\n' ∨ c = '\r' ∨ c.toNat = 11 ∨ c.toNat = 12)
  match cs with
  | '+' :: rest => (jsParseIntMagnitude rest).map (fun n => (n : Int))
  | '-' :: rest => (jsParseIntMagnitude rest).map (fun n => -(n : Int))
  | rest => (jsParseIntMagnitude rest).map (fun n => (n : Int))

/-- `Label` interface of `cli-groq.ts` (`id`, `name`, optional `type`). -/
structure Label where
  id : String
  name : String
  type : Option String := none
deriving Repr, DecidableEq

/-- The session-context fields of class `GmailAICLI` in `cli-groq.ts`:
`lastEmailIds`, `lastSearchResults` (kept as ids-with-metadata there; here we
keep only what resolution reads), `lastReadEmailId`, `labelsCache`. -/
structure SessionContext where
  lastEmailIds : List String
  lastReadEmailId : Option String
  labelsCache : List Label
deriving Repr

/-- JavaScript `toLowerCase` (ASCII range, as used for label names). -/
def jsToLower (s : String) : String := String.mk (s.data.map Char.toLower)

/-- JavaScript `toUpperCase` (ASCII range, as used for label names). -/
def jsToUpper (s : String) : String := String.mk (s.data.map Char.toUpper)

/-- JavaScript `s.startsWith(pre)`. -/
def jsStartsWith (s pre : String) : Bool := pre.data.isPrefixOf s.data

/-- `GmailAICLI.getLabelIdByName` (`cli-groq.ts`): case-insensitive exact
match of a label name against the cached labels, first hit wins, `null` on
miss. -/
def getLabelIdByName (labelsCache : List Label) (labelName : String) : Option String :=
  (labelsCache.find? (fun l => jsToLower l.name = jsToLower labelName)).map Label.id

/-- The contextual message-id resolution of the `read_email` case of
`GmailAICLI.callTool` (`cli-groq.ts` lines 393–410): `"first"` and `"last"`
index into `lastEmailIds`, `"last_read"` uses the truthy `lastReadEmailId`,
a token whose `parseInt` is a number is used as a 1-based index when in
range, and anything else is returned unchanged. -/
def resolveReadMessageId (ctx : SessionContext) (messageId : String) : String :=
  if messageId = "first" ∧ 0 < ctx.lastEmailIds.length then
    ctx.lastEmailIds.getD 0 messageId
  else if messageId = "last" ∧ 0 < ctx.lastEmailIds.length then
    ctx.lastEmailIds.getD (ctx.lastEmailIds.length - 1) messageId
  else if messageId = "last_read" ∧ jsTruthyStr ctx.lastReadEmailId then
    (ctx.lastReadEmailId).getD messageId
  else
    match jsParseInt messageId with
    | some n =>
      if 0 < ctx.lastEmailIds.length then
        let index : Int := n - 1
        if 0 ≤ index ∧ index < ctx.lastEmailIds.length then
          ctx.lastEmailIds.getD index.toNat messageId
        else messageId
      else messageId
    | none => messageId

/-- The contextual message-id-list resolution of the `modify_labels` case of
`GmailAICLI.callTool` (`cli-groq.ts` lines 419–438): only singleton lists are
rewritten; `"all_from_search"`/`"those"` become the whole `lastEmailIds`,
`"last_read"` the truthy last-read id, `"it"`/`"this"` the last-read id, else
the first search hit, else the list is left untouched. -/
def resolveModifyMessageIds (ctx : SessionContext) (messageIds : List String) : List String :=
  if messageIds.length = 1 then
    let tok := messageIds.getD 0 ""
    if tok = "all_from_search" ∨ tok = "those" then
      ctx.lastEmailIds
    else if tok = "last_read" ∧ jsTruthyStr ctx.lastReadEmailId then
      [(ctx.lastReadEmailId).getD ""]
    else if tok = "it" ∨ tok = "this" then
      if jsTruthyStr ctx.lastReadEmailId then
        [(ctx.lastReadEmailId).getD ""]
      else if 0 < ctx.lastEmailIds.length then
        [ctx.lastEmailIds.getD 0 ""]
      else
        messageIds
    else messageIds
  else messageIds

/-- `body` object of a Gmail API message part (`data`, `attachmentId`,
`size`), each field possibly absent. -/
structure PartBody where
  data : Option String
  attachmentId : Option String
  size : Option Nat
deriving Repr, DecidableEq

/-- A Gmail API message part: a possibly nested MIME tree.  `headers` and
`parts` are optional exactly as in the API payload consumed by
`GmailService.readEmail`. -/
inductive MimePart where
  | mk (mimeType : String) (filename : Option String)
      (headers : Option (List (String × Option String)))
      (body : Option PartBody) (parts : Option (List MimePart))

/-- `mimeType` field of a part. -/
def MimePart.mimeType : MimePart → String
  | .mk m _ _ _ _ => m

/-- `filename` field of a part. -/
def MimePart.filename : MimePart → Option String
  | .mk _ f _ _ _ => f

/-- `headers` field of a part. -/
def MimePart.headers : MimePart → Option (List (String × Option String))
  | .mk _ _ h _ _ => h

/-- `body` field of a part. -/
def MimePart.body : MimePart → Option PartBody
  | .mk _ _ _ b _ => b

/-- `parts` field of a part. -/
def MimePart.parts : MimePart → Option (List MimePart)
  | .mk _ _ _ _ p => p

/-- The inner `extractBody` closure of `GmailService.readEmail`
(`gmail-service.ts`): walks a part list, appending the decoded `body.data` of
every `text/plain` part with truthy data, and recursing into `parts` of every
other part that has a `parts` array.  `dec` is the base64url-to-utf-8
decoding applied by the source. -/
def extractBody (dec : String → String) : List MimePart → String
  | [] => ""
  | MimePart.mk mimeType _ _ body parts :: ps =>
    (if mimeType = "text/plain" ∧ jsTruthyStr (body.bind PartBody.data) then
      dec ((body.bind PartBody.data).getD "")
    else
      match parts with
      | some sub => extractBody dec sub
      | none => "")
    ++ extractBody dec ps

/-- Specification-side collector: the decoded contents of all `text/plain`
parts with truthy body data, in depth-first preorder, not descending into
the `text/plain` parts themselves.  Used to characterise `extractBody`. -/
def plainTexts (dec : String → String) : List MimePart → List String
  | [] => []
  | MimePart.mk mimeType _ _ body parts :: ps =>
    (if mimeType = "text/plain" ∧ jsTruthyStr (body.bind PartBody.data) then
      [dec ((body.bind PartBody.data).getD "")]
    else
      match parts with
      | some sub => plainTexts dec sub
      | none => [])
    ++ plainTexts dec ps

/-- The body value computed by `GmailService.readEmail` before the snippet
fallback: `extractBody` over `payload.parts` when that array is present,
else the decoded top-level `payload.body.data` when truthy, else empty. -/
def readEmailBodyRaw (dec : String → String) (payload : Option MimePart) : String :=
  match payload with
  | some pl =>
    match pl.parts with
    | some ps => extractBody dec ps
    | none =>
      if jsTruthyStr (pl.body.bind PartBody.data) then
        dec ((pl.body.bind PartBody.data).getD "")
      else ""
  | none => ""

/-- The `body` field returned by `GmailService.readEmail`:
`body || message.snippet || ""`. -/
def readEmailBody (dec : String → String) (payload : Option MimePart) (snippet : Option String) : String :=
  let body := readEmailBodyRaw dec payload
  if body ≠ "" then body
  else if jsTruthyStr snippet then snippet.getD ""
  else ""

/-- Modelled from the spec (claim wording for `read_email`): the decoded
content of the first `text/plain` leaf found by depth-first traversal of the
part tree. -/
def firstPlainLeaf (dec : String → String) : List MimePart → Option String
  | [] => none
  | MimePart.mk mimeType _ _ body parts :: ps =>
    (if mimeType = "text/plain" ∧ jsTruthyStr (body.bind PartBody.data) then
      some (dec ((body.bind PartBody.data).getD ""))
    else
      match parts with
      | some sub => firstPlainLeaf dec sub
      | none => none).orElse
    (fun _ => firstPlainLeaf dec ps)

/-- Modelled from the spec (claim wording for `read_email`): the body is the
first `text/plain` leaf by depth-first traversal; for messages with no
`text/plain` part it falls back to the top-level body, and then to the
snippet. -/
def claimReadBody (dec : String → String) (payload : Option MimePart) (snippet : Option String) : String :=
  match payload.bind MimePart.parts with
  | some ps =>
    match firstPlainLeaf dec ps with
    | some t => t
    | none =>
      match payload.bind (fun pl => pl.body.bind PartBody.data) with
      | some d => if d ≠ "" then dec d else snippet.getD ""
      | none => snippet.getD ""
  | none =>
    match payload.bind (fun pl => pl.body.bind PartBody.data) with
    | some d => if d ≠ "" then dec d else snippet.getD ""
    | none => snippet.getD ""

/-- `headers.find(h => h.name === name)?.value || ""` of `gmail-service.ts`. -/
def getHeaderValue (headers : List (String × Option String)) (name : String) : String :=
  match headers.find? (fun h => h.1 = name) with
  | some h => if jsTruthyStr h.2 then h.2.getD "" else ""
  | none => ""

/-- `Promise.all` over a list of fallible requests: every request is
issued; the first rejection (in list order) rejects the whole batch,
otherwise the results are collected in order. -/
def promiseAll {α β : Type} (f : α → Except String β) : List α → Except String (List β)
  | [] => .ok []
  | x :: xs =>
    match f x with
    | .error e => .error e
    | .ok y =>
      match promiseAll f xs with
      | .error e => .error e
      | .ok ys => .ok (y :: ys)

/-- One Gmail REST call, as issued by the `GmailService` methods. -/
inductive ApiCall where
  | messagesList (q : String) (maxResults : Nat)
  | messagesGetMetadata (id : String)
  | messagesGetFull (id : String)
  | messagesModify (id : String) (addLabelIds removeLabelIds : List String)
  | messagesTrash (id : String)
  | labelsList
  | filtersCreate
deriving Repr, DecidableEq

/-- `messages.list` response: the `messages` array may be absent entirely
(Gmail omits it when nothing matches). -/
structure ListResp where
  messages : Option (List (String × Option String))
  resultSizeEstimate : Option Int
deriving Repr, DecidableEq

/-- `messages.get` (format `metadata`) response fields read by
`searchEmails`. -/
structure MetaResp where
  headers : List (String × Option String)
  snippet : Option String
  labelIds : Option (List String)
deriving Repr, DecidableEq

/-- `messages.get` (format `full`) response fields read by `readEmail`. -/
structure FullMessage where
  id : Option String
  threadId : Option String
  snippet : Option String
  labelIds : Option (List String)
  payload : Option MimePart

/-- Filter criteria bag (`from`/`to`/`subject`/`query`/`hasAttachment`),
each field possibly absent.  `from`/`to` are renamed to `fromAddr`/`toAddr`
because `from` is a Lean keyword. -/
structure FilterCriteria where
  fromAddr : Option String
  toAddr : Option String
  subject : Option String
  query : Option String
  hasAttachment : Option Bool
deriving Repr, DecidableEq

/-- Filter action bag (`addLabelIds`/`removeLabelIds`/`forward`). -/
structure FilterAction where
  addLabelIds : Option (List String)
  removeLabelIds : Option (List String)
  forward : Option String
deriving Repr, DecidableEq

/-- `settings.filters.create` response fields returned by `createFilter`. -/
structure CreatedFilter where
  id : Option String
  criteria : FilterCriteria
  action : FilterAction
deriving Repr, DecidableEq

/-- The external Gmail API, as response functions: what each REST endpoint
answers.  `labels` is what `labels.list` returns (used by the label-cache
refresh), `b64decode` is the base64url-to-utf-8 decoding used on body data. -/
structure GmailEnv where
  messagesList : String → Nat → Except String ListResp
  getMeta : String → Except String MetaResp
  getFull : String → Except String FullMessage
  modify : String → List String → List String → Except String (Option (List String))
  trash : String → Except String Unit
  labels : List Label
  filtersCreateResp : FilterCriteria → FilterAction → Except String CreatedFilter
  b64decode : String → String

/-- One message summary as returned by `GmailService.searchEmails`. -/
structure EmailMessage where
  id : String
  threadId : Option String
  subject : String
  fromAddr : String
  toAddr : String
  date : String
  snippet : Option String
  labelIds : Option (List String)
deriving Repr, DecidableEq

/-- Return value of `GmailService.searchEmails`.  The zero-match early
return carries no `total` field; it is `none` there. -/
structure SearchResult where
  messages : List EmailMessage
  query : String
  total : Option Int
deriving Repr, DecidableEq

/-- `GmailService.searchEmails` (`gmail-service.ts`): a `messages.list` call
bounded by `maxResults`, then one metadata `messages.get` per hit; an absent
`messages` array yields an empty result, not an error.  Returns the result
(or the wrapped error) together with the API calls issued. -/
def GmailService.searchEmails (env : GmailEnv) (query : String) (maxResults : Nat) :
    Except String SearchResult × List ApiCall :=
  let listCall := ApiCall.messagesList query maxResults
  match env.messagesList query maxResults with
  | .error e => (.error ("Failed to search emails: Error: " ++ e), [listCall])
  | .ok resp =>
    match resp.messages with
    | none => (.ok { messages := [], query := query, total := none }, [listCall])
    | some refs =>
      let taken := refs.take maxResults
      let fetched := promiseAll (fun r =>
        (env.getMeta r.1).map (fun m =>
          ({ id := r.1, threadId := r.2,
             subject := getHeaderValue m.headers "Subject",
             fromAddr := getHeaderValue m.headers "From",
             toAddr := getHeaderValue m.headers "To",
             date := getHeaderValue m.headers "Date",
             snippet := m.snippet,
             labelIds := m.labelIds } : EmailMessage))) taken
      let calls := listCall :: taken.map (fun r => ApiCall.messagesGetMetadata r.1)
      match fetched with
      | .ok msgs =>
        (.ok { messages := msgs, query := query, total := resp.resultSizeEstimate }, calls)
      | .error e => (.error ("Failed to search emails: Error: " ++ e), calls)

/-- One attachment entry of the `readEmail` result. -/
structure AttachmentInfo where
  filename : Option String
  mimeType : String
  size : Option Nat
  attachmentId : Option String
deriving Repr, DecidableEq

/-- The `attachments` field of `readEmail`: top-level parts that carry a
truthy filename and a truthy attachment id; absent when the payload has no
`parts` array. -/
def collectAttachments (payload : Option MimePart) : Option (List AttachmentInfo) :=
  (payload.bind MimePart.parts).map (fun ps =>
    (ps.filter (fun p =>
      jsTruthyStr p.filename ∧ jsTruthyStr (p.body.bind PartBody.attachmentId))).map
      (fun p =>
        { filename := p.filename
          mimeType := p.mimeType
          size := p.body.bind PartBody.size
          attachmentId := p.body.bind PartBody.attachmentId }))

/-- Return value of `GmailService.readEmail`. -/
structure ReadEmailResult where
  id : Option String
  threadId : Option String
  subject : String
  fromAddr : String
  toAddr : String
  cc : String
  date : String
  body : String
  snippet : Option String
  labelIds : Option (List String)
  attachments : Option (List AttachmentInfo)

/-- `GmailService.readEmail` (`gmail-service.ts`): one full `messages.get`,
header projection, body extraction with snippet fallback, attachment
listing; failures wrapped with the operation name. -/
def GmailService.readEmail (env : GmailEnv) (messageId : String) :
    Except String ReadEmailResult × List ApiCall :=
  let call := ApiCall.messagesGetFull messageId
  match env.getFull messageId with
  | .error e => (.error ("Failed to read email: Error: " ++ e), [call])
  | .ok msg =>
    let headers := (msg.payload.bind MimePart.headers).getD []
    (.ok { id := msg.id
           threadId := msg.threadId
           subject := getHeaderValue headers "Subject"
           fromAddr := getHeaderValue headers "From"
           toAddr := getHeaderValue headers "To"
           cc := getHeaderValue headers "Cc"
           date := getHeaderValue headers "Date"
           body := readEmailBody env.b64decode msg.payload msg.snippet
           snippet := msg.snippet
           labelIds := msg.labelIds
           attachments := collectAttachments msg.payload }, [call])

/-- One per-message entry of the `modifyLabels` result. -/
structure ModifyOne where
  messageId : String
  success : Bool
  labels : Option (List String)
deriving Repr, DecidableEq

/-- Return value of `GmailService.modifyLabels`. -/
structure ModifyLabelsResult where
  results : List ModifyOne
  modified : Nat
deriving Repr, DecidableEq

/-- `GmailService.modifyLabels` (`gmail-service.ts`): one `messages.modify`
per message id (all issued by the `Promise.all` fan-out), reporting
`modified` as the number of per-message results. -/
def GmailService.modifyLabels (env : GmailEnv) (messageIds : List String)
    (addLabels removeLabels : List String) :
    Except String ModifyLabelsResult × List ApiCall :=
  let calls := messageIds.map (fun id => ApiCall.messagesModify id addLabels removeLabels)
  match promiseAll (fun id =>
      (env.modify id addLabels removeLabels).map (fun labels =>
        ({ messageId := id, success := true, labels := labels } : ModifyOne))) messageIds with
  | .ok rs => (.ok { results := rs, modified := rs.length }, calls)
  | .error e => (.error ("Failed to modify labels: Error: " ++ e), calls)

/-- Return value of `GmailService.batchOperation`.  The empty-match early
return carries no `messageIds` field; it is `none` there. -/
structure BatchResult where
  affected : Nat
  operation : String
  query : String
  messageIds : Option (List String)
deriving Repr, DecidableEq

/-- `GmailService.batchOperation` (`gmail-service.ts`): resolve the query to
at most 100 message ids, then dispatch to the label-modify or trash path;
an operation outside the fixed enum is an error. -/
def GmailService.batchOperation (env : GmailEnv) (query operation : String) :
    Except String BatchResult × List ApiCall :=
  let listCall := ApiCall.messagesList query 100
  match env.messagesList query 100 with
  | .error e => (.error ("Failed to perform batch operation: Error: " ++ e), [listCall])
  | .ok resp =>
    match resp.messages with
    | none =>
      (.ok { affected := 0, operation := operation, query := query, messageIds := none },
       [listCall])
    | some refs =>
      let ids := refs.map (fun r => r.1)
      let opRun : Except String Unit × List ApiCall :=
        if operation = "archive" then
          let (r, calls) := GmailService.modifyLabels env ids [] ["INBOX"]
          (r.map (fun _ => ()), calls)
        else if operation = "delete" then
          ((promiseAll (fun id => env.trash id) ids).map (fun _ => ()),
           ids.map ApiCall.messagesTrash)
        else if operation = "markRead" then
          let (r, calls) := GmailService.modifyLabels env ids [] ["UNREAD"]
          (r.map (fun _ => ()), calls)
        else if operation = "markUnread" then
          let (r, calls) := GmailService.modifyLabels env ids ["UNREAD"] []
          (r.map (fun _ => ()), calls)
        else if operation = "star" then
          let (r, calls) := GmailService.modifyLabels env ids ["STARRED"] []
          (r.map (fun _ => ()), calls)
        else if operation = "unstar" then
          let (r, calls) := GmailService.modifyLabels env ids [] ["STARRED"]
          (r.map (fun _ => ()), calls)
        else (.error ("Unknown operation: " ++ operation), [])
      match opRun with
      | (.ok _, calls) =>
        (.ok { affected := ids.length, operation := operation, query := query,
               messageIds := some ids }, listCall :: calls)
      | (.error e, calls) =>
        (.error ("Failed to perform batch operation: Error: " ++ e), listCall :: calls)

/-- The criteria/action mapping of `GmailService.createFilter`: each criteria
field is copied when truthy (`hasAttachment` when defined at all), each
action field when present. -/
def buildFilterReq (criteria : FilterCriteria) (action : FilterAction) :
    FilterCriteria × FilterAction :=
  ({ fromAddr := if jsTruthyStr criteria.fromAddr then criteria.fromAddr else none
     toAddr := if jsTruthyStr criteria.toAddr then criteria.toAddr else none
     subject := if jsTruthyStr criteria.subject then criteria.subject else none
     query := if jsTruthyStr criteria.query then criteria.query else none
     hasAttachment := criteria.hasAttachment },
   { addLabelIds := action.addLabelIds
     removeLabelIds := action.removeLabelIds
     forward := if jsTruthyStr action.forward then action.forward else none })

/-- `GmailService.createFilter` (`gmail-service.ts`): builds the filter
request and issues one `settings.filters.create` call. -/
def GmailService.createFilter (env : GmailEnv) (criteria : FilterCriteria)
    (action : FilterAction) : Except String CreatedFilter × List ApiCall :=
  let req := buildFilterReq criteria action
  match env.filtersCreateResp req.1 req.2 with
  | .ok cf => (.ok cf, [ApiCall.filtersCreate])
  | .error e => (.error ("Failed to create filter: Error: " ++ e), [ApiCall.filtersCreate])

/-- `args.maxResults || 10` of the `search_emails` case: an absent or zero
(falsy) value defaults to 10. -/
def maxResultsOrTen : Option Nat → Nat
  | some n => if n = 0 then 10 else n
  | none => 10

/-- The `search_emails` case of `GmailAICLI.callTool` (`cli-groq.ts` lines
379–389): run the search with `args.maxResults || 10`, and on a result whose
(always present, hence truthy) `messages` array store the ids into the
session context.  Returns the result and the updated context. -/
def callToolSearchEmails (env : GmailEnv) (ctx : SessionContext) (query : String)
    (maxResults : Option Nat) : Except String SearchResult × SessionContext :=
  match (GmailService.searchEmails env query (maxResultsOrTen maxResults)).1 with
  | .ok r => (.ok r, { ctx with lastEmailIds := r.messages.map EmailMessage.id })
  | .error e => (.error e, ctx)

/-- The `read_email` case of `GmailAICLI.callTool` (`cli-groq.ts` lines
391–415): resolve the contextual id, read, and only after a successful read
record the resolved id as `lastReadEmailId`; an exception leaves the
context untouched. -/
def callToolReadEmail (env : GmailEnv) (ctx : SessionContext) (messageId : String) :
    Except String ReadEmailResult × SessionContext :=
  let resolved := resolveReadMessageId ctx messageId
  match (GmailService.readEmail env resolved).1 with
  | .ok content => (.ok content, { ctx with lastReadEmailId := some resolved })
  | .error e => (.error e, ctx)

/-- One label token of the `modify_labels` case (`cli-groq.ts` lines
444–497): all-uppercase names and `Label_`-prefixed ids pass through; other
names are looked up in the session cache, on miss the cache is refreshed
once (one `labels.list` call) and retried, and a name still unresolved is
dropped (`none`) after a warning. -/
def resolveModifyLabelToken (labelsCache serverLabels : List Label) (label : String) :
    Option String × List ApiCall :=
  if jsToUpper label = label ∨ jsStartsWith label "Label_" then (some label, [])
  else
    match getLabelIdByName labelsCache label with
    | some id => (some id, [])
    | none =>
      match getLabelIdByName serverLabels label with
      | some id => (some id, [ApiCall.labelsList])
      | none => (none, [ApiCall.labelsList])

/-- The `addLabels`/`removeLabels` processing of the `modify_labels` case:
map every token through `resolveModifyLabelToken`, then filter out the
unresolved (`null`) entries; the `labels.list` refresh calls are collected
alongside. -/
def resolveModifyLabelList (labelsCache serverLabels : List Label) (labels : List String) :
    List String × List ApiCall :=
  if 0 < labels.length then
    ((labels.map (fun l => (resolveModifyLabelToken labelsCache serverLabels l).1)).filterMap id,
     labels.flatMap (fun l => (resolveModifyLabelToken labelsCache serverLabels l).2))
  else ([], [])

/-- The `modify_labels` case of `GmailAICLI.callTool` (`cli-groq.ts` lines
417–503): contextual id-list resolution, label-name resolution for both
label arguments, then `GmailService.modifyLabels`. -/
def callToolModifyLabels (env : GmailEnv) (ctx : SessionContext) (messageIds : List String)
    (addLabels removeLabels : Option (List String)) :
    Except String ModifyLabelsResult × List ApiCall :=
  let ids := resolveModifyMessageIds ctx messageIds
  let addRes := resolveModifyLabelList ctx.labelsCache env.labels (addLabels.getD [])
  let removeRes := resolveModifyLabelList ctx.labelsCache env.labels (removeLabels.getD [])
  let (r, calls) := GmailService.modifyLabels env ids addRes.1 removeRes.1
  (r, addRes.2 ++ removeRes.2 ++ calls)

/-- One label token of the `create_filter` case (`cli-groq.ts` lines
505–524): all-uppercase names pass through; other names are looked up in the
session cache, on miss the cache is refreshed once and retried, and a name
still unresolved raises `Label not found`. -/
def resolveFilterLabelToken (labelsCache serverLabels : List Label) (label : String) :
    Except String String × List ApiCall :=
  if jsToUpper label = label then (.ok label, [])
  else
    match getLabelIdByName labelsCache label with
    | some id => (.ok id, [])
    | none =>
      match getLabelIdByName serverLabels label with
      | some id => (.ok id, [ApiCall.labelsList])
      | none => (.error ("Label not found: " ++ label), [ApiCall.labelsList])

/-- The `action.addLabelIds` processing of the `create_filter` case: a
`Promise.all` over `resolveFilterLabelToken`; the first failing token
rejects the whole list, while every token's refresh calls are still
issued. -/
def resolveFilterLabelList (labelsCache serverLabels : List Label) (labels : List String) :
    Except String (List String) × List ApiCall :=
  (promiseAll (fun l => (resolveFilterLabelToken labelsCache serverLabels l).1) labels,
   labels.flatMap (fun l => (resolveFilterLabelToken labelsCache serverLabels l).2))

/-- Result of a CLI tool call that can be declined at the confirmation
gate. -/
inductive ToolResult where
  | cancelled (operation : Option String)
  | batchDone (r : BatchResult)
  | filterCreated (r : CreatedFilter)
deriving Repr, DecidableEq

/-- The `batch_operation` case of `GmailAICLI.callTool` (`cli-groq.ts` lines
547–567): `delete` and `archive` first ask for confirmation and, when
declined, return `{cancelled: true, operation}` without any Gmail call;
otherwise the service's `batchOperation` runs.  `confirmAnswer` is the
user's reply to the confirmation prompt. -/
def callToolBatchOperation (env : GmailEnv) (confirmAnswer : Bool) (query operation : String) :
    Except String ToolResult × List ApiCall :=
  if operation = "delete" ∧ ¬confirmAnswer then
    (.ok (ToolResult.cancelled (some operation)), [])
  else if operation = "archive" ∧ ¬confirmAnswer then
    (.ok (ToolResult.cancelled (some operation)), [])
  else
    let (r, calls) := GmailService.batchOperation env query operation
    (r.map ToolResult.batchDone, calls)

/-- The `create_filter` case of `GmailAICLI.callTool` (`cli-groq.ts` lines
505–538): resolve `action.addLabelIds` (when present) through the label
cache, then — if the action removes `INBOX` — ask for confirmation,
returning `{cancelled: true}` when declined; only then call the service's
`createFilter`. -/
def callToolCreateFilter (env : GmailEnv) (ctx : SessionContext) (confirmAnswer : Bool)
    (criteria : FilterCriteria) (action : FilterAction) :
    Except String ToolResult × List ApiCall :=
  let resolved : Except String FilterAction × List ApiCall :=
    match action.addLabelIds with
    | some labels =>
      let r := resolveFilterLabelList ctx.labelsCache env.labels labels
      (r.1.map (fun ids => { action with addLabelIds := some ids }), r.2)
    | none => (.ok action, [])
  match resolved with
  | (.error e, rcalls) => (.error e, rcalls)
  | (.ok act, rcalls) =>
    if (act.removeLabelIds.getD []).contains "INBOX" ∧ ¬confirmAnswer then
      (.ok (ToolResult.cancelled none), rcalls)
    else
      let (fr, fcalls) := GmailService.createFilter env criteria act
      (fr.map ToolResult.filterCreated, rcalls ++ fcalls)

/-- Whether an API call is a `labels.list` (label-cache refresh) call. -/
def ApiCall.isLabelsList : ApiCall → Bool
  | ApiCall.labelsList => true
  | _ => false

/-- Folding string append from any accumulator splits off the accumulator. -/
theorem foldl_append_acc (l : List String) : ∀ s : String,
    List.foldl (fun r t => r ++ t) s l = s ++ List.foldl (fun r t => r ++ t) "" l := by
  induction l with
  | nil => intro s; simp
  | cons a as ih =>
    intro s
    simp only [List.foldl_cons]
    rw [ih (s ++ a), ih ("" ++ a)]
    simp [String.append_assoc]

/-- `String.join` unfolds on cons. -/
theorem join_cons (a : String) (l : List String) : String.join (a :: l) = a ++ String.join l := by
  simp only [String.join, List.foldl_cons]
  rw [foldl_append_acc l ("" ++ a)]
  simp

/-- `String.join` distributes over list append. -/
theorem join_append (l1 l2 : List String) :
    String.join (l1 ++ l2) = String.join l1 ++ String.join l2 := by
  induction l1 with
  | nil => simp [String.join]
  | cons a as ih => simp [join_cons, ih, String.append_assoc]

/-- The imperative `body +=` accumulation of `extractBody` concatenates
exactly the `text/plain` contributions collected by `plainTexts`, in
depth-first order. -/
theorem extractBody_eq_join_plainTexts (dec : String → String) (ps : List MimePart) :
    extractBody dec ps = String.join (plainTexts dec ps) := by
  induction ps using extractBody.induct dec with
  | case1 =>
    rw [extractBody, plainTexts]
    rfl
  | case2 mt fn hs body parts ps ih1 ih2 =>
    rw [extractBody.eq_def, plainTexts.eq_def]
    simp only []
    rw [join_append]
    by_cases hc : mt = "text/plain" ∧ jsTruthyStr (body.bind PartBody.data)
    · rw [if_pos hc, if_pos hc, ih2, join_cons]
      simp [String.join]
    · rw [if_neg hc, if_neg hc]
      cases parts with
      | none =>
        rw [ih2]
        simp [String.join]
      | some sub =>
        have ih1' : extractBody dec sub = String.join (plainTexts dec sub) := ih1
        simp [ih1', ih2]

/-- `getD 0` of a non-empty list is its head. -/
theorem getD_zero_eq_head {α : Type} (l : List α) (d : α) (h : l ≠ []) :
    l.getD 0 d = l.head h := by
  cases l with
  | nil => exact absurd rfl h
  | cons a as => rfl

/-- `getD (length - 1)` of a non-empty list is its last element. -/
theorem getD_pred_length_eq_getLast {α : Type} (l : List α) (d : α) (h : l ≠ []) :
    l.getD (l.length - 1) d = l.getLast h := by
  induction l with
  | nil => exact absurd rfl h
  | cons a as ih =>
    cases as with
    | nil => rfl
    | cons b bs =>
      have h2 : (b :: bs : List α) ≠ [] := by simp
      have step : (a :: b :: bs : List α).getD ((a :: b :: bs).length - 1) d
          = (b :: bs).getD ((b :: bs).length - 1) d := by
        simp [List.getD_cons_succ, List.length_cons]
      rw [step, ih h2]
      exact (List.getLast_cons h2).symm

/-- A successful `promiseAll` returns one result per request. -/
theorem promiseAll_ok_length {α β : Type} (f : α → Except String β) :
    ∀ (xs : List α) (ys : List β), promiseAll f xs = .ok ys → ys.length = xs.length := by
  intro xs
  induction xs with
  | nil =>
    intro ys h
    rw [promiseAll] at h
    cases h
    rfl
  | cons x xs ih =>
    intro ys h
    rw [promiseAll] at h
    cases hfx : f x with
    | error e => rw [hfx] at h; cases h
    | ok y =>
      rw [hfx] at h
      cases hrec : promiseAll f xs with
      | error e => rw [hrec] at h; cases h
      | ok ys' =>
        rw [hrec] at h
        cases h
        simp [ih ys' hrec]

/-- A session context holding a three-element last-search list. -/
def ctxM3 : SessionContext :=
  { lastEmailIds := ["m1", "m2", "m3"], lastReadEmailId := none, labelsCache := [] }

/-- A fresh session context: no search recorded, nothing read. -/
def ctxEmpty : SessionContext :=
  { lastEmailIds := [], lastReadEmailId := none, labelsCache := [] }

/-- A session context with a recorded last-read id and an empty search list. -/
def ctxR : SessionContext :=
  { lastEmailIds := [], lastReadEmailId := some "r1", labelsCache := [] }

/-- C1, counterexample.  With the non-empty last-search list
`["m1", "m2", "m3"]`, the `read_email` resolution maps `"first"` to `"m1"`
but `"last"` to `"m3"` (the last array element, the oldest message) and
`"latest"` to the literal `"latest"` — so `"last"` and `"latest"` are not
synonyms of `"first"` as the claim states. -/
theorem c1_counterexample :
    ctxM3.lastEmailIds ≠ []
    ∧ resolveReadMessageId ctxM3 "first" = "m1"
    ∧ resolveReadMessageId ctxM3 "last" = "m3"
    ∧ "m3" ≠ "m1"
    ∧ resolveReadMessageId ctxM3 "latest" = "latest"
    ∧ "latest" ≠ "m1" := by
  decide

/-- C1, amended.  For every non-empty last-recorded search id list, the
`read_email` resolution maps `"first"` to the first element, `"last"` to the
last element of the list (the oldest listed message), and `"latest"` — which
is not a recognized token — to itself, i.e. it is treated as a literal
message id. -/
theorem c1_amended (ctx : SessionContext) (h : ctx.lastEmailIds ≠ []) :
    resolveReadMessageId ctx "first" = ctx.lastEmailIds.head h
    ∧ resolveReadMessageId ctx "last" = ctx.lastEmailIds.getLast h
    ∧ resolveReadMessageId ctx "latest" = "latest" := by
  have hlen : 0 < ctx.lastEmailIds.length := List.length_pos.mpr h
  refine ⟨?_, ?_, ?_⟩
  · rw [resolveReadMessageId]
    rw [if_pos ⟨rfl, hlen⟩]
    exact getD_zero_eq_head _ _ h
  · rw [resolveReadMessageId]
    rw [if_neg (fun hcon => absurd hcon.1 (by decide)), if_pos ⟨rfl, hlen⟩]
    exact getD_pred_length_eq_getLast _ _ h
  · rw [resolveReadMessageId]
    rw [if_neg (fun hcon => absurd hcon.1 (by decide)),
        if_neg (fun hcon => absurd hcon.1 (by decide)),
        if_neg (fun hcon => absurd hcon.1 (by decide)),
        show jsParseInt "latest" = none from by decide]

/-- C1, witness: the amended statement evaluated on `ctxM3`. -/
theorem c1_witness :
    resolveReadMessageId ctxM3 "first" = "m1"
    ∧ resolveReadMessageId ctxM3 "last" = "m3"
    ∧ resolveReadMessageId ctxM3 "latest" = "latest" := by
  have h := c1_amended ctxM3 (by decide)
  simpa [ctxM3] using h

/-- C5, counterexample.  The token `"1abc"` is not a positive integer string
(it has non-digit characters) and is no symbolic reference, so by the claim
it should be returned unchanged; but JavaScript `parseInt("1abc")` is `1`, so
the code resolves it to the first search hit `"m1"`. -/
theorem c5_counterexample :
    ("1abc".data.all Char.isDigit) = false
    ∧ resolveReadMessageId ctxM3 "1abc" = "m1"
    ∧ "m1" ≠ "1abc" := by
  decide

/-- C5, amended.  A token whose JavaScript `parseInt` value is a number `n`
(this includes every positive integer string, but also tokens with leading
whitespace, a sign, or trailing non-digits) resolves to the `(n-1)`-th id of
the last search list when `1 ≤ n ≤ length`, and is returned unresolved
otherwise; a token on which `parseInt` yields `NaN` and which is none of the
symbolic references is returned unchanged, treated as a literal server id. -/
theorem c5_amended (ctx : SessionContext) (tok : String) :
    (∀ n : Int, jsParseInt tok = some n →
      resolveReadMessageId ctx tok =
        if 1 ≤ n ∧ n ≤ (ctx.lastEmailIds.length : Int) then
          ctx.lastEmailIds.getD (n - 1).toNat tok
        else tok)
    ∧ (jsParseInt tok = none → tok ≠ "first" → tok ≠ "last" → tok ≠ "last_read" →
      resolveReadMessageId ctx tok = tok) := by
  constructor
  · intro n hn
    have hf : tok ≠ "first" := by
      intro he; rw [he, show jsParseInt "first" = none from by decide] at hn; cases hn
    have hl : tok ≠ "last" := by
      intro he; rw [he, show jsParseInt "last" = none from by decide] at hn; cases hn
    have hlr : tok ≠ "last_read" := by
      intro he; rw [he, show jsParseInt "last_read" = none from by decide] at hn; cases hn
    rw [resolveReadMessageId,
        if_neg (fun hcon => absurd hcon.1 hf),
        if_neg (fun hcon => absurd hcon.1 hl),
        if_neg (fun hcon => absurd hcon.1 hlr)]
    simp only [hn]
    by_cases hlen : 0 < ctx.lastEmailIds.length
    · rw [if_pos hlen]
      by_cases hin : 1 ≤ n ∧ n ≤ (ctx.lastEmailIds.length : Int)
      · rw [if_pos (by omega : (0:Int) ≤ n - 1 ∧ n - 1 < (ctx.lastEmailIds.length : Int)),
            if_pos hin]
      · have hneg : ¬((0:Int) ≤ n - 1 ∧ n - 1 < (ctx.lastEmailIds.length : Int)) := by
          intro hcon
          exact hin ⟨by omega, by omega⟩
        rw [if_neg hneg, if_neg hin]
    · rw [if_neg hlen]
      have hneg : ¬(1 ≤ n ∧ n ≤ (ctx.lastEmailIds.length : Int)) := by
        intro hcon
        rcases hcon with ⟨h1, h2⟩
        omega
      rw [if_neg hneg]
  · intro hn hf hl hlr
    rw [resolveReadMessageId,
        if_neg (fun hcon => absurd hcon.1 hf),
        if_neg (fun hcon => absurd hcon.1 hl),
        if_neg (fun hcon => absurd hcon.1 hlr)]
    simp only [hn]

/-- C5, witness: the amended statement evaluated on `ctxM3` for an in-range
index, an out-of-range index, and a non-numeric literal. -/
theorem c5_witness :
    resolveReadMessageId ctxM3 "2" = "m2"
    ∧ resolveReadMessageId ctxM3 "9" = "9"
    ∧ resolveReadMessageId ctxM3 "zzz" = "zzz" := by
  have h2 := (c5_amended ctxM3 "2").1 2 (by decide)
  have h9 := (c5_amended ctxM3 "9").1 9 (by decide)
  have hz := (c5_amended ctxM3 "zzz").2 (by decide) (by decide) (by decide) (by decide)
  refine ⟨?_, ?_, hz⟩
  · rw [h2, if_pos (by decide)]
    decide
  · rw [h9, if_neg (by decide)]

/-- C6, counterexample.  In a fresh session (`ctxEmpty`: no last-read id, no
search results), `["it"]` is left unchanged rather than resolving to the
empty list as the claim states; and with a recorded last-read id (`ctxR`),
`["last_read"]` — which falls under the claim's "any other list" — is
rewritten to `["r1"]` rather than passed through unchanged. -/
theorem c6_counterexample :
    resolveModifyMessageIds ctxEmpty ["it"] = ["it"]
    ∧ (["it"] : List String) ≠ []
    ∧ resolveModifyMessageIds ctxR ["last_read"] = ["r1"]
    ∧ (["r1"] : List String) ≠ ["last_read"] := by
  decide

/-- C6, amended.  A singleton `["those"]` or `["all_from_search"]` resolves
to the entire last-recorded search id list (including the empty list); a
singleton `["last_read"]` resolves to the singleton last-read id when one is
recorded; a singleton `["it"]` or `["this"]` resolves to the singleton
last-read id if present, else to the singleton first search-result id if the
search list is non-empty, else is left unchanged; every non-singleton list
and every other singleton is passed through unchanged. -/
theorem c6_amended (ctx : SessionContext) :
    resolveModifyMessageIds ctx ["those"] = ctx.lastEmailIds
    ∧ resolveModifyMessageIds ctx ["all_from_search"] = ctx.lastEmailIds
    ∧ (∀ r : String, ctx.lastReadEmailId = some r → r ≠ "" →
        resolveModifyMessageIds ctx ["last_read"] = [r]
        ∧ resolveModifyMessageIds ctx ["it"] = [r]
        ∧ resolveModifyMessageIds ctx ["this"] = [r])
    ∧ (ctx.lastReadEmailId = none → ∀ h : ctx.lastEmailIds ≠ [],
        resolveModifyMessageIds ctx ["it"] = [ctx.lastEmailIds.head h]
        ∧ resolveModifyMessageIds ctx ["this"] = [ctx.lastEmailIds.head h])
    ∧ (ctx.lastReadEmailId = none → ctx.lastEmailIds = [] →
        resolveModifyMessageIds ctx ["it"] = ["it"]
        ∧ resolveModifyMessageIds ctx ["this"] = ["this"])
    ∧ (∀ ids : List String, ids.length ≠ 1 → resolveModifyMessageIds ctx ids = ids)
    ∧ (∀ tok : String, tok ≠ "those" → tok ≠ "all_from_search" → tok ≠ "last_read" →
        tok ≠ "it" → tok ≠ "this" → resolveModifyMessageIds ctx [tok] = [tok]) := by
  refine ⟨?_, ?_, ?_, ?_, ?_, ?_, ?_⟩
  · simp [resolveModifyMessageIds]
  · simp [resolveModifyMessageIds]
  · intro r hr hne
    refine ⟨?_, ?_, ?_⟩ <;>
      simp [resolveModifyMessageIds, jsTruthyStr, hr, hne]
  · intro hnone h
    have hlen : 0 < ctx.lastEmailIds.length := List.length_pos.mpr h
    constructor <;>
      simp [resolveModifyMessageIds, jsTruthyStr, hnone, hlen, List.getElem_zero]
  · intro hnone hnil
    constructor <;>
      simp [resolveModifyMessageIds, jsTruthyStr, hnone, hnil]
  · intro ids hlen
    rw [resolveModifyMessageIds, if_neg hlen]
  · intro tok h1 h2 h3 h4 h5
    simp [resolveModifyMessageIds, h1, h2, h3, h4, h5]

/-- C6, witness: the amended statement evaluated on `ctxR` (last-read id
`"r1"`, empty search list) and `ctxM3`. -/
theorem c6_witness :
    resolveModifyMessageIds ctxR ["those"] = []
    ∧ resolveModifyMessageIds ctxR ["it"] = ["r1"]
    ∧ resolveModifyMessageIds ctxM3 ["this"] = ["m1"]
    ∧ resolveModifyMessageIds ctxR ["a", "b"] = ["a", "b"]
    ∧ resolveModifyMessageIds ctxR ["other"] = ["other"] := by
  refine ⟨?_, ?_, ?_, ?_, ?_⟩
  · simpa [ctxR] using (c6_amended ctxR).1
  · exact ((c6_amended ctxR).2.2.1 "r1" rfl (by decide)).2.1
  · have h := ((c6_amended ctxM3).2.2.2.1 rfl (by decide)).2
    simpa [ctxM3] using h
  · exact (c6_amended ctxR).2.2.2.2.2.1 ["a", "b"] (by decide)
  · exact (c6_amended ctxR).2.2.2.2.2.2 "other" (by decide) (by decide) (by decide)
      (by decide) (by decide)

/-- A concrete Gmail environment used by witnesses: two matching messages,
uniform metadata, one user label `Work`, successful responses throughout. -/
def envTest : GmailEnv :=
  { messagesList := fun _ _ =>
      .ok { messages := some [("m1", some "t1"), ("m2", none)], resultSizeEstimate := some 2 }
    getMeta := fun id =>
      .ok { headers := [("Subject", some ("S-" ++ id)), ("From", some "a@x.com"),
                        ("To", some "b@x.com"), ("Date", some "D")],
            snippet := some "snip", labelIds := some ["INBOX", "UNREAD"] }
    getFull := fun id =>
      .ok { id := some id, threadId := some "t1", snippet := some "snip",
            labelIds := some ["INBOX"],
            payload := some (MimePart.mk "text/plain" none
              (some [("Subject", some "S"), ("From", some "a@x.com")])
              (some { data := some "BODY", attachmentId := none, size := none }) none) }
    modify := fun _ _ _ => .ok (some ["INBOX"])
    trash := fun _ => .ok ()
    labels := [{ id := "Label_1", name := "Work", type := some "user" }]
    filtersCreateResp := fun c a => .ok { id := some "f1", criteria := c, action := a }
    b64decode := id }

/-- Every API call issued while resolving one `create_filter` label token is
a `labels.list` cache refresh. -/
theorem resolveFilterLabelToken_calls (labelsCache serverLabels : List Label) (label : String) :
    ((resolveFilterLabelToken labelsCache serverLabels label).2).all ApiCall.isLabelsList := by
  rw [resolveFilterLabelToken]
  by_cases h : jsToUpper label = label
  · rw [if_pos h]
    rfl
  · rw [if_neg h]
    cases getLabelIdByName labelsCache label with
    | some id => simp
    | none =>
      cases getLabelIdByName serverLabels label with
      | some id => simp [ApiCall.isLabelsList]
      | none => simp [ApiCall.isLabelsList]

/-- Every API call issued while resolving a `create_filter` label list is a
`labels.list` cache refresh. -/
theorem resolveFilterLabelList_calls (labelsCache serverLabels : List Label)
    (labels : List String) :
    ((resolveFilterLabelList labelsCache serverLabels labels).2).all ApiCall.isLabelsList := by
  rw [resolveFilterLabelList]
  simp only [List.all_eq_true]
  intro c hc
  rcases List.mem_flatMap.mp hc with ⟨l, _, hcl⟩
  have h := resolveFilterLabelToken_calls labelsCache serverLabels l
  rw [List.all_eq_true] at h
  exact h c hcl

/-- C2.  The confirmation gate: a `batch_operation` with operation
`"delete"` or `"archive"` whose confirmation is declined returns
`{cancelled: true, operation}` and issues no Gmail API call at all; a
`create_filter` whose action's `removeLabelIds` contains `"INBOX"` and whose
confirmation is declined returns `{cancelled: true}` (provided label
resolution did not already fail, in which case the gate is never reached),
and every API call it issued is a `labels.list` label-resolution call —
in particular no filter is created. -/
theorem c2_confirmation_gate :
    (∀ (env : GmailEnv) (query operation : String),
      operation = "delete" ∨ operation = "archive" →
      callToolBatchOperation env false query operation =
        (.ok (ToolResult.cancelled (some operation)), []))
    ∧ (∀ (env : GmailEnv) (ctx : SessionContext) (criteria : FilterCriteria)
        (action : FilterAction),
      (action.removeLabelIds.getD []).contains "INBOX" →
      (∀ e : String, (callToolCreateFilter env ctx false criteria action).1 ≠ .error e) →
      (callToolCreateFilter env ctx false criteria action).1 =
          .ok (ToolResult.cancelled none)
        ∧ ((callToolCreateFilter env ctx false criteria action).2).all ApiCall.isLabelsList) := by
  constructor
  · intro env query operation hop
    rcases hop with h | h <;> subst h
    · rw [callToolBatchOperation, if_pos ⟨rfl, Bool.false_ne_true⟩]
    · rw [callToolBatchOperation,
          if_neg (fun hcon => absurd hcon.1 (by decide)),
          if_pos ⟨rfl, Bool.false_ne_true⟩]
  · intro env ctx criteria action hinbox hnoerr
    have hmem : "INBOX" ∈ action.removeLabelIds.getD [] := by
      simpa using hinbox
    cases hadd : action.addLabelIds with
    | none =>
      constructor
      · simp [callToolCreateFilter, hadd, hmem]
      · simp [callToolCreateFilter, hadd, hmem]
    | some labels =>
      cases hres : (resolveFilterLabelList ctx.labelsCache env.labels labels).1 with
      | error e =>
        exfalso
        apply hnoerr e
        simp [callToolCreateFilter, hadd, hres, Except.map]
      | ok ids =>
        constructor
        · simp [callToolCreateFilter, hadd, hres, hmem, Except.map]
        · have hcalls := resolveFilterLabelList_calls ctx.labelsCache env.labels labels
          simp only [List.all_eq_true] at hcalls
          simp only [callToolCreateFilter, hadd, hres, Except.map]
          simpa [hmem] using hcalls

/-- C2, witness: a declined batch delete and a declined inbox-removing
filter on the concrete environment `envTest`. -/
theorem c2_witness :
    callToolBatchOperation envTest false "is:unread" "delete" =
      (.ok (ToolResult.cancelled (some "delete")), [])
    ∧ (callToolCreateFilter envTest ctxEmpty false
        { fromAddr := some "x@y.com", toAddr := none, subject := none,
          query := none, hasAttachment := none }
        { addLabelIds := none, removeLabelIds := some ["INBOX"], forward := none }).1 =
      .ok (ToolResult.cancelled none) := by
  constructor
  · exact c2_confirmation_gate.1 envTest "is:unread" "delete" (Or.inl rfl)
  · exact (c2_confirmation_gate.2 envTest ctxEmpty
      { fromAddr := some "x@y.com", toAddr := none, subject := none,
        query := none, hasAttachment := none }
      { addLabelIds := none, removeLabelIds := some ["INBOX"], forward := none }
      (by decide) (fun e h => by simp [callToolCreateFilter] at h)).1

/-- If some request of a `Promise.all` batch rejects, the whole batch
rejects. -/
theorem promiseAll_error_of_mem {α β : Type} (f : α → Except String β) :
    ∀ (xs : List α) (x : α) (e0 : String), x ∈ xs → f x = .error e0 →
      ∃ e, promiseAll f xs = .error e := by
  intro xs
  induction xs with
  | nil => intro x e0 hmem; cases hmem
  | cons y ys ih =>
    intro x e0 hmem hfx
    cases hfy : f y with
    | error e => exact ⟨e, by rw [promiseAll, hfy]⟩
    | ok v =>
      rcases List.mem_cons.mp hmem with h | h
      · subst h
        rw [hfx] at hfy
        cases hfy
      · rcases ih x e0 h hfx with ⟨e, he⟩
        exact ⟨e, by rw [promiseAll, hfy, he]⟩

/-- C3, counterexample.  With the label name `"nosuch"` cached nowhere and
absent from the server's labels: a `create_filter` whose action adds
`"nosuch"` fails with `Label not found: nosuch` instead of dropping the
label and proceeding, while the same unresolved name in a `modify_labels`
call is dropped and the operation proceeds. -/
theorem c3_counterexample :
    (callToolCreateFilter envTest ctxEmpty true
      { fromAddr := some "x@y.com", toAddr := none, subject := none,
        query := none, hasAttachment := none }
      { addLabelIds := some ["nosuch"], removeLabelIds := none, forward := none }).1
      = .error "Label not found: nosuch"
    ∧ (callToolModifyLabels envTest ctxEmpty ["m1"] (some ["nosuch"]) none).1
      = .ok { results := [{ messageId := "m1", success := true, labels := some ["INBOX"] }],
              modified := 1 } := by
  exact ⟨rfl, rfl⟩

/-- C3, amended.  Label names in `modify_labels` `addLabels`/`removeLabels`
are resolved through the session cache with one refresh-and-retry on miss,
and a name still unresolved after the retry is dropped while the operation
proceeds with the remaining labels; label names in `create_filter`
`action.addLabelIds` are resolved the same way, but a name still unresolved
after the retry raises a `Label not found` error that fails the whole
`create_filter` call instead of proceeding. -/
theorem c3_amended :
    (∀ (cache server : List Label) (label id : String),
      ¬(jsToUpper label = label ∨ jsStartsWith label "Label_") →
      getLabelIdByName cache label = none →
      getLabelIdByName server label = some id →
      resolveModifyLabelToken cache server label = (some id, [ApiCall.labelsList]))
    ∧ (∀ (cache server : List Label) (label : String),
      (resolveModifyLabelToken cache server label).1 = none →
      ∀ rest : List String,
        (resolveModifyLabelList cache server (label :: rest)).1 =
          (resolveModifyLabelList cache server rest).1)
    ∧ (∀ (cache server : List Label) (label id : String),
      jsToUpper label ≠ label →
      getLabelIdByName cache label = none →
      getLabelIdByName server label = some id →
      resolveFilterLabelToken cache server label = (.ok id, [ApiCall.labelsList]))
    ∧ (∀ (cache server : List Label) (label : String),
      jsToUpper label ≠ label →
      getLabelIdByName cache label = none →
      getLabelIdByName server label = none →
      resolveFilterLabelToken cache server label =
        (.error ("Label not found: " ++ label), [ApiCall.labelsList]))
    ∧ (∀ (cache server : List Label) (labels : List String) (label : String) (e0 : String),
      label ∈ labels →
      (resolveFilterLabelToken cache server label).1 = .error e0 →
      ∃ e, (resolveFilterLabelList cache server labels).1 = .error e)
    ∧ (∀ (env : GmailEnv) (ctx : SessionContext) (confirmAnswer : Bool)
        (criteria : FilterCriteria) (action : FilterAction) (labels : List String)
        (e : String),
      action.addLabelIds = some labels →
      (resolveFilterLabelList ctx.labelsCache env.labels labels).1 = .error e →
      (callToolCreateFilter env ctx confirmAnswer criteria action).1 = .error e) := by
  refine ⟨?_, ?_, ?_, ?_, ?_, ?_⟩
  · intro cache server label id hsys hcache hserver
    rw [resolveModifyLabelToken, if_neg hsys, hcache, hserver]
  · intro cache server label hnone rest
    cases rest with
    | nil => simp [resolveModifyLabelList, hnone]
    | cons r rs => simp [resolveModifyLabelList, hnone]
  · intro cache server label id hsys hcache hserver
    rw [resolveFilterLabelToken, if_neg hsys, hcache, hserver]
  · intro cache server label hsys hcache hserver
    rw [resolveFilterLabelToken, if_neg hsys, hcache, hserver]
  · intro cache server labels label e0 hmem herr
    exact promiseAll_error_of_mem _ labels label e0 hmem herr
  · intro env ctx confirmAnswer criteria action labels e hadd hres
    simp [callToolCreateFilter, hadd, hres, Except.map]

/-- C3, witness: the amended statement evaluated on concrete caches — the
cache-miss-then-server-hit case for `"work"`, the drop-and-proceed case and
the `create_filter` failure case for `"nosuch"`. -/
theorem c3_witness :
    resolveModifyLabelToken [] envTest.labels "work" = (some "Label_1", [ApiCall.labelsList])
    ∧ (resolveModifyLabelList [] envTest.labels ["nosuch", "STARRED"]).1 =
        (resolveModifyLabelList [] envTest.labels ["STARRED"]).1
    ∧ resolveFilterLabelToken [] envTest.labels "work" = (.ok "Label_1", [ApiCall.labelsList])
    ∧ resolveFilterLabelToken [] [] "nosuch" =
        (.error "Label not found: nosuch", [ApiCall.labelsList])
    ∧ (∃ e, (resolveFilterLabelList [] [] ["STARRED", "nosuch"]).1 = .error e)
    ∧ (callToolCreateFilter envTest ctxEmpty true
        { fromAddr := none, toAddr := none, subject := none, query := none,
          hasAttachment := none }
        { addLabelIds := some ["nosuch"], removeLabelIds := none, forward := none }).1
        = .error "Label not found: nosuch" := by
  refine ⟨?_, ?_, ?_, ?_, ?_, ?_⟩
  · exact c3_amended.1 [] envTest.labels "work" "Label_1" (by decide) (by decide) (by decide)
  · exact c3_amended.2.1 [] envTest.labels "nosuch" (by decide) ["STARRED"]
  · exact c3_amended.2.2.1 [] envTest.labels "work" "Label_1" (by decide) (by decide)
      (by decide)
  · exact c3_amended.2.2.2.1 [] [] "nosuch" (by decide) (by decide) (by decide)
  · exact c3_amended.2.2.2.2.1 [] [] ["STARRED", "nosuch"] "nosuch"
      "Label not found: nosuch" (by decide) rfl
  · exact c3_amended.2.2.2.2.2 envTest ctxEmpty true
      { fromAddr := none, toAddr := none, subject := none, query := none,
        hasAttachment := none }
      { addLabelIds := some ["nosuch"], removeLabelIds := none, forward := none }
      ["nosuch"] "Label not found: nosuch" rfl rfl

/-- A `text/plain` part carrying the text `"A"`. -/
def plainA : MimePart :=
  MimePart.mk "text/plain" none none
    (some { data := some "A", attachmentId := none, size := none }) none

/-- A `text/plain` part carrying the text `"B"`. -/
def plainB : MimePart :=
  MimePart.mk "text/plain" none none
    (some { data := some "B", attachmentId := none, size := none }) none

/-- A multipart payload with two `text/plain` parts. -/
def payloadAB : MimePart :=
  MimePart.mk "multipart/alternative" none none none (some [plainA, plainB])

/-- An HTML-only part. -/
def htmlPart : MimePart :=
  MimePart.mk "text/html" none none
    (some { data := some "<p>hi</p>", attachmentId := none, size := none }) none

/-- A payload whose `parts` array holds no `text/plain` part but whose
top-level body data is `"TOP"`. -/
def payloadTopHtml : MimePart :=
  MimePart.mk "multipart/mixed" none none
    (some { data := some "TOP", attachmentId := none, size := none }) (some [htmlPart])

/-- The `body || snippet || ""` tail evaluates to `snippet.getD ""`. -/
theorem truthy_snippet_getD (snippet : Option String) :
    (if jsTruthyStr snippet then snippet.getD "" else "") = snippet.getD "" := by
  cases snippet with
  | none => rfl
  | some s => by_cases hs : s = "" <;> simp [jsTruthyStr, hs]

/-- C4, counterexample.  A payload with two `text/plain` parts `"A"` and
`"B"` yields the concatenation `"AB"`, not the first leaf `"A"`; and a
payload whose parts array has no `text/plain` part falls straight back to
the snippet, skipping the top-level body `"TOP"` the claim promises. -/
theorem c4_counterexample :
    readEmailBody id (some payloadAB) none = "AB"
    ∧ claimReadBody id (some payloadAB) none = "A"
    ∧ "AB" ≠ "A"
    ∧ readEmailBody id (some payloadTopHtml) (some "SNIP") = "SNIP"
    ∧ claimReadBody id (some payloadTopHtml) (some "SNIP") = "TOP"
    ∧ "SNIP" ≠ "TOP" := by
  refine ⟨?_, ?_, by decide, ?_, ?_, by decide⟩
  · simp [readEmailBody, readEmailBodyRaw, extractBody, payloadAB, plainA, plainB,
      jsTruthyStr, MimePart.parts, MimePart.body]
  · simp [claimReadBody, firstPlainLeaf, payloadAB, plainA, plainB, jsTruthyStr,
      MimePart.parts, MimePart.body]
  · simp [readEmailBody, readEmailBodyRaw, extractBody, payloadTopHtml, htmlPart,
      jsTruthyStr, MimePart.parts, MimePart.body]
  · simp [claimReadBody, firstPlainLeaf, payloadTopHtml, htmlPart, jsTruthyStr,
      MimePart.parts, MimePart.body]

/-- C4, amended.  For a successfully fetched message: when the payload has a
`parts` array, the returned body is the concatenation (in depth-first
preorder) of the decoded contents of all `text/plain` parts with non-empty
body data, falling back to the snippet when that concatenation is empty —
the top-level body is never consulted in this case; when the payload has no
`parts` array, the body is the decoded top-level body data when truthy, else
the snippet; with no payload at all, the body is the snippet (empty string
if absent). -/
theorem c4_amended (env : GmailEnv) (mid : String) (msg : FullMessage)
    (hget : env.getFull mid = .ok msg) :
    ∃ r : ReadEmailResult, (GmailService.readEmail env mid).1 = .ok r
      ∧ (∀ pl ps, msg.payload = some pl → pl.parts = some ps →
          r.body = (if String.join (plainTexts env.b64decode ps) = ""
                    then msg.snippet.getD ""
                    else String.join (plainTexts env.b64decode ps)))
      ∧ (∀ pl, msg.payload = some pl → pl.parts = none →
          r.body = (let top := if jsTruthyStr (pl.body.bind PartBody.data)
                               then env.b64decode ((pl.body.bind PartBody.data).getD "")
                               else ""
                    if top = "" then msg.snippet.getD "" else top))
      ∧ (msg.payload = none → r.body = msg.snippet.getD "") := by
  cases hread : (GmailService.readEmail env mid).1 with
  | error e => simp [GmailService.readEmail, hget] at hread
  | ok r =>
    have hbody : r.body = readEmailBody env.b64decode msg.payload msg.snippet := by
      simp only [GmailService.readEmail, hget] at hread
      injection hread with h
      rw [← h]
    refine ⟨r, rfl, ?_, ?_, ?_⟩
    · intro pl ps hpl hps
      rw [hbody, hpl, readEmailBody, readEmailBodyRaw]
      simp only [hps]
      rw [extractBody_eq_join_plainTexts, truthy_snippet_getD]
      by_cases hj : String.join (plainTexts env.b64decode ps) = ""
      · rw [if_neg (by simpa using hj), if_pos hj]
      · rw [if_pos hj, if_neg hj]
    · intro pl hpl hps
      rw [hbody, hpl, readEmailBody, readEmailBodyRaw]
      rw [hps]
      rw [truthy_snippet_getD]
      by_cases ht : jsTruthyStr (pl.body.bind PartBody.data)
      · rw [if_pos ht]
        simp only [if_pos ht]
        by_cases hd : env.b64decode ((pl.body.bind PartBody.data).getD "") = ""
        · rw [if_neg (by simpa using hd), if_pos hd]
        · rw [if_pos hd, if_neg hd]
      · rw [if_neg ht]
        simp only [if_neg ht]
        rfl
    · intro hpl
      rw [hbody, hpl, readEmailBody, readEmailBodyRaw]
      rw [truthy_snippet_getD]
      rfl

/-- The full message returned by the C4 witness environment. -/
def msgC4 : FullMessage :=
  { id := some "m1", threadId := none, snippet := some "snip",
    labelIds := some ["INBOX"], payload := some payloadAB }

/-- A Gmail environment whose full-message fetch returns `msgC4`. -/
def envC4 : GmailEnv :=
  { envTest with getFull := fun _ => .ok msgC4, b64decode := id }

/-- C4, witness: the amended statement evaluated on a payload with the two
`text/plain` parts `"A"` and `"B"`. -/
theorem c4_witness :
    ∃ r : ReadEmailResult, (GmailService.readEmail envC4 "m1").1 = .ok r
      ∧ r.body = "AB" := by
  obtain ⟨r, hok, hparts, _, _⟩ := c4_amended envC4 "m1" msgC4 rfl
  refine ⟨r, hok, ?_⟩
  have h := hparts payloadAB [plainA, plainB] rfl rfl
  rw [h]
  simp [plainTexts, plainA, plainB, jsTruthyStr, join_cons, envC4, String.join]

/-- C7.  Every successful `modifyLabels` call reports a modified count equal
to the number of input message ids, and the issued API calls are exactly one
`messages.modify` per input id, in order, each carrying the add and remove
label-id sets. -/
theorem c7_modify_count (env : GmailEnv) (messageIds addLabels removeLabels : List String)
    (r : ModifyLabelsResult)
    (hok : (GmailService.modifyLabels env messageIds addLabels removeLabels).1 = .ok r) :
    r.modified = messageIds.length
    ∧ (GmailService.modifyLabels env messageIds addLabels removeLabels).2 =
        messageIds.map (fun id => ApiCall.messagesModify id addLabels removeLabels) := by
  constructor
  · rw [GmailService.modifyLabels] at hok
    cases hp : promiseAll (fun id =>
        (env.modify id addLabels removeLabels).map (fun labels =>
          ({ messageId := id, success := true, labels := labels } : ModifyOne))) messageIds with
    | error e => rw [hp] at hok; cases hok
    | ok rs =>
      rw [hp] at hok
      injection hok with h
      rw [← h]
      exact promiseAll_ok_length _ messageIds rs hp
  · rw [GmailService.modifyLabels]
    cases hp : promiseAll (fun id =>
        (env.modify id addLabels removeLabels).map (fun labels =>
          ({ messageId := id, success := true, labels := labels } : ModifyOne))) messageIds with
    | error e => rfl
    | ok rs => rfl

/-- C7, witness: a successful two-message modify on `envTest`. -/
theorem c7_witness :
    ({ results := [{ messageId := "a", success := true, labels := some ["INBOX"] },
                   { messageId := "b", success := true, labels := some ["INBOX"] }],
       modified := 2 } : ModifyLabelsResult).modified = (["a", "b"] : List String).length
    ∧ (GmailService.modifyLabels envTest ["a", "b"] ["STARRED"] []).2 =
        [ApiCall.messagesModify "a" ["STARRED"] [], ApiCall.messagesModify "b" ["STARRED"] []] := by
  have h := c7_modify_count envTest ["a", "b"] ["STARRED"] []
    { results := [{ messageId := "a", success := true, labels := some ["INBOX"] },
                  { messageId := "b", success := true, labels := some ["INBOX"] }],
      modified := 2 } rfl
  exact ⟨h.1, h.2⟩

/-- C8.  When the `messages.list` call succeeds with no matching messages —
whether Gmail omits the `messages` array or returns it empty — the search
returns a result whose message list is empty, not an error. -/
theorem c8_empty_search (env : GmailEnv) (query : String) (maxResults : Nat)
    (resp : ListResp)
    (hresp : env.messagesList query maxResults = .ok resp)
    (hempty : resp.messages = none ∨ resp.messages = some []) :
    ∃ r : SearchResult, (GmailService.searchEmails env query maxResults).1 = .ok r
      ∧ r.messages = [] := by
  rcases hempty with h | h
  · exact ⟨{ messages := [], query := query, total := none },
      by simp [GmailService.searchEmails, hresp, h], rfl⟩
  · exact ⟨{ messages := [], query := query, total := resp.resultSizeEstimate },
      by simp [GmailService.searchEmails, hresp, h, promiseAll], rfl⟩

/-- The empty `messages.list` response. -/
def emptyListResp : ListResp := { messages := some [], resultSizeEstimate := some 0 }

/-- A Gmail environment whose message listing returns an empty `messages`
array. -/
def envEmptySearch : GmailEnv :=
  { envTest with messagesList := fun _ _ => Except.ok emptyListResp }

/-- C8, witness: a zero-match search on `envEmptySearch`. -/
theorem c8_witness :
    ∃ r : SearchResult, (GmailService.searchEmails envEmptySearch "is:unread" 10).1 = .ok r
      ∧ r.messages = [] := by
  exact c8_empty_search envEmptySearch "is:unread" 10 emptyListResp rfl (Or.inr rfl)

/-- C9.  After every successful `search_emails` tool call, the stored
last-search id list equals exactly the ordered ids of the returned messages;
in particular a zero-match search stores the empty list, replacing any
previously stored ids. -/
theorem c9_search_updates_context (env : GmailEnv) (ctx : SessionContext) (query : String)
    (maxResults : Option Nat) (r : SearchResult) (ctx' : SessionContext)
    (h : callToolSearchEmails env ctx query maxResults = (.ok r, ctx')) :
    ctx'.lastEmailIds = r.messages.map EmailMessage.id
    ∧ (r.messages = [] → ctx'.lastEmailIds = []) := by
  rw [callToolSearchEmails] at h
  cases hs : (GmailService.searchEmails env query (maxResultsOrTen maxResults)).1 with
  | ok res =>
    rw [hs] at h
    simp only [Prod.mk.injEq] at h
    obtain ⟨hr, hctx⟩ := h
    injection hr with hr
    subst hr
    subst hctx
    exact ⟨rfl, fun hnil => by simp [hnil]⟩
  | error e =>
    rw [hs] at h
    simp only [Prod.mk.injEq] at h
    exact absurd h.1 (by simp)

/-- C9, witness: on `envTest` the stored ids become `["m1", "m2"]`,
and on `envEmptySearch` a search from the stale context `ctxM3` stores
the empty list. -/
theorem c9_witness :
    (callToolSearchEmails envTest ctxM3 "q" none).2.lastEmailIds = ["m1", "m2"]
    ∧ (callToolSearchEmails envEmptySearch ctxM3 "q" none).2.lastEmailIds = [] := by
  constructor
  · exact ((c9_search_updates_context envTest ctxM3 "q" none
      { messages := [{ id := "m1", threadId := some "t1", subject := "S-m1",
                       fromAddr := "a@x.com", toAddr := "b@x.com", date := "D",
                       snippet := some "snip", labelIds := some ["INBOX", "UNREAD"] },
                     { id := "m2", threadId := none, subject := "S-m2",
                       fromAddr := "a@x.com", toAddr := "b@x.com", date := "D",
                       snippet := some "snip", labelIds := some ["INBOX", "UNREAD"] }],
        query := "q", total := some 2 }
      { lastEmailIds := ["m1", "m2"], lastReadEmailId := none, labelsCache := [] } rfl).1).trans rfl
  · exact (c9_search_updates_context envEmptySearch ctxM3 "q" none
      { messages := [], query := "q", total := some 0 }
      { lastEmailIds := [], lastReadEmailId := none, labelsCache := [] } rfl).2 rfl

/-- C10.  When the underlying read fails during a `read_email` tool call,
the session context is returned unchanged: the last-read id is assigned only
after a successful read. -/
theorem c10_failed_read_preserves_context (env : GmailEnv) (ctx : SessionContext)
    (messageId : String) (e : String)
    (h : (callToolReadEmail env ctx messageId).1 = .error e) :
    (callToolReadEmail env ctx messageId).2 = ctx := by
  rw [callToolReadEmail] at h ⊢
  cases hs : (GmailService.readEmail env (resolveReadMessageId ctx messageId)).1 with
  | ok content =>
    rw [hs] at h
    simp at h
  | error e2 =>
    rfl

/-- A Gmail environment whose full-message fetch always fails. -/
def envFailRead : GmailEnv :=
  { envTest with getFull := fun _ => .error "Message not found" }

/-- C10, witness: a failed read on `envFailRead` from the context `ctxM3`
leaves the context untouched. -/
theorem c10_witness :
    (callToolReadEmail envFailRead ctxM3 "first").2 = ctxM3 := by
  exact c10_failed_read_preserves_context envFailRead ctxM3 "first"
    "Failed to read email: Error: Message not found" rfl
